import Mathlib

/-!
Verification of the attendance aggregation logic of `attendance_scraper.py`
(`_parse_date` and `calculate_attendance`).

Modelling conventions:
* Python strings are Lean `String` (a structure over `List Char`); the
  whitespace class, `str.upper`, `str.isdigit` and the regex character
  classes are modelled on their ASCII fragment, which is all the code's
  inputs exercise.
* Python floats are modelled as exact rationals; `round(x, 2)` is
  modelled as decimal rounding half-to-even at two places (`rnd2`).
* Python dicts (insertion ordered, unique keys) are association lists:
  lookup finds the first matching key, assignment of a fresh key appends,
  update rewrites the first occurrence in place.
* A scraped `<tr>` element is a `Row`: its `.text` and the texts of its
  `<td>` children.
-/

/-! ### Python string helpers -/

/-- ASCII fragment of Python's `str` whitespace class (used by `str.strip`,
`str.splitlines` and the regex class `\s`). -/
def isPySpace (c : Char) : Bool :=
  c = ' ' || c = '\t' || c = '\n' || c = '\r' || c = '\x0b' || c = '\x0c'

/-- `str.strip()` on a character list. -/
def stripChars (cs : List Char) : List Char :=
  (((cs.dropWhile isPySpace).reverse.dropWhile isPySpace).reverse)

/-- Python `s.strip()`. -/
def pyStrip (s : String) : String := ⟨stripChars s.data⟩

/-- ASCII fragment of `str.upper` on one character. -/
def upperChar (c : Char) : Char :=
  if 'a' ≤ c ∧ c ≤ 'z' then Char.ofNat (c.toNat - 32) else c

/-- ASCII fragment of Python `s.upper()`. -/
def upperStr (s : String) : String := ⟨s.data.map upperChar⟩

/-- Substring test on character lists (Python's `in` on strings). -/
def isSubChars (needle : List Char) : List Char → Bool
  | [] => needle.isEmpty
  | c :: rest => needle.isPrefixOf (c :: rest) || isSubChars needle rest

/-- Python `sub in hay` for strings. -/
def strContains (hay sub : String) : Bool := isSubChars sub.data hay.data

/-- Python `bool(s) and s[0].isdigit()` (ASCII digits). -/
def firstIsDigit (s : String) : Bool :=
  match s.data with
  | [] => false
  | c :: _ => c.isDigit

/-- Python `str.splitlines` (restricted to the line breaks `\r\n`, `\r`,
`\n`, the only ones at issue here). -/
def splitLinesGo : List Char → List Char → List (List Char)
  | '\r' :: '\n' :: rest, acc => acc :: splitLinesGo rest []
  | '\n' :: rest, acc => acc :: splitLinesGo rest []
  | '\r' :: rest, acc => acc :: splitLinesGo rest []
  | c :: rest, acc => splitLinesGo rest (acc ++ [c])
  | [], acc => if acc.isEmpty then [] else [acc]

def pySplitlines (cs : List Char) : List (List Char) := splitLinesGo cs []

/-! ### `_parse_date`

`DATE_INPUT_FORMATS = ["%d %b, %Y", "%d %b %Y"]`; `_parse_date` strips its
input and tries `datetime.strptime` with each format in order, returning
`dt.strftime("%Y-%m-%d")` for the first that succeeds, else `None`.

`strptime` compiles the format to a regex: `%d` becomes
`3[01]|[12]\d|0[1-9]|[1-9]`, `%b` an alternation of the twelve
case-insensitive month abbreviations, `%Y` exactly four digits, and a
whitespace run in the format becomes `\s+`; the whole input must be
consumed.  In both formats the day is followed by `\s+`, so the ordered
alternation for `%d` is deterministic: when two digits follow, the
one-digit branch would leave a digit where whitespace is required, hence
the two-digit branches decide the match (value 1..31), and greedy
whitespace runs never need to backtrack because the following token is
never a whitespace character. -/

/-- `%d`: a day number 1..31, written with one or two digits. -/
def parseDayChars : List Char → Option (Nat × List Char)
  | c1 :: c2 :: rest =>
    if c1.isDigit then
      if c2.isDigit then
        let v := 10 * (c1.toNat - 48) + (c2.toNat - 48)
        if 1 ≤ v ∧ v ≤ 31 then some (v, rest) else none
      else if c1 ≠ '0' then some (c1.toNat - 48, c2 :: rest) else none
    else none
  | [c1] => if c1.isDigit ∧ c1 ≠ '0' then some (c1.toNat - 48, []) else none
  | [] => none

/-- `\s+` (greedy; the next token is never a whitespace character). -/
def parseWs1 : List Char → Option (List Char)
  | c :: rest => if isPySpace c then some (rest.dropWhile isPySpace) else none
  | [] => none

/-- The twelve C-locale month abbreviations, uppercased. -/
def lookupMonth (a b c : Char) : Option Nat :=
  if a = 'J' ∧ b = 'A' ∧ c = 'N' then some 1
  else if a = 'F' ∧ b = 'E' ∧ c = 'B' then some 2
  else if a = 'M' ∧ b = 'A' ∧ c = 'R' then some 3
  else if a = 'A' ∧ b = 'P' ∧ c = 'R' then some 4
  else if a = 'M' ∧ b = 'A' ∧ c = 'Y' then some 5
  else if a = 'J' ∧ b = 'U' ∧ c = 'N' then some 6
  else if a = 'J' ∧ b = 'U' ∧ c = 'L' then some 7
  else if a = 'A' ∧ b = 'U' ∧ c = 'G' then some 8
  else if a = 'S' ∧ b = 'E' ∧ c = 'P' then some 9
  else if a = 'O' ∧ b = 'C' ∧ c = 'T' then some 10
  else if a = 'N' ∧ b = 'O' ∧ c = 'V' then some 11
  else if a = 'D' ∧ b = 'E' ∧ c = 'C' then some 12
  else none

/-- `%b`: a case-insensitive three-letter month abbreviation. -/
def parseMonth : List Char → Option (Nat × List Char)
  | c1 :: c2 :: c3 :: rest =>
    match lookupMonth (upperChar c1) (upperChar c2) (upperChar c3) with
    | some m => some (m, rest)
    | none => none
  | _ => none

/-- `%Y`: exactly four digits. -/
def parseYear4 : List Char → Option (Nat × List Char)
  | a :: b :: c :: d :: rest =>
    if a.isDigit ∧ b.isDigit ∧ c.isDigit ∧ d.isDigit then
      some (1000 * (a.toNat - 48) + 100 * (b.toNat - 48) +
            10 * (c.toNat - 48) + (d.toNat - 48), rest)
    else none
  | _ => none

/-- Gregorian leap-year rule used by `datetime`. -/
def isLeap (y : Nat) : Bool := y % 4 = 0 ∧ (y % 100 ≠ 0 ∨ y % 400 = 0)

def daysInMonth (m y : Nat) : Nat :=
  if m = 2 then (if isLeap y then 29 else 28)
  else if m = 4 ∨ m = 6 ∨ m = 9 ∨ m = 11 then 30
  else 31

/-- `strptime(s, "%d %b, %Y")` followed by the `datetime` range check
(`MINYEAR = 1`; the day must exist in the month), as `(year, month, day)`. -/
def tryFmt1 (cs : List Char) : Option (Nat × Nat × Nat) :=
  match parseDayChars cs with
  | none => none
  | some (d, r1) =>
    match parseWs1 r1 with
    | none => none
    | some r2 =>
      match parseMonth r2 with
      | none => none
      | some (m, r3) =>
        match r3 with
        | c :: r4 =>
          if c = ',' then
            match parseWs1 r4 with
            | none => none
            | some r5 =>
              match parseYear4 r5 with
              | some (y, []) =>
                if 1 ≤ y ∧ d ≤ daysInMonth m y then some (y, m, d) else none
              | _ => none
          else none
        | [] => none

/-- `strptime(s, "%d %b %Y")` followed by the `datetime` range check. -/
def tryFmt2 (cs : List Char) : Option (Nat × Nat × Nat) :=
  match parseDayChars cs with
  | none => none
  | some (d, r1) =>
    match parseWs1 r1 with
    | none => none
    | some r2 =>
      match parseMonth r2 with
      | none => none
      | some (m, r3) =>
        match parseWs1 r3 with
        | none => none
        | some r4 =>
          match parseYear4 r4 with
          | some (y, []) =>
            if 1 ≤ y ∧ d ≤ daysInMonth m y then some (y, m, d) else none
          | _ => none

def digitCharOf : Nat → Char
  | 0 => '0' | 1 => '1' | 2 => '2' | 3 => '3' | 4 => '4'
  | 5 => '5' | 6 => '6' | 7 => '7' | 8 => '8' | 9 => '9'
  | _ => '*'

/-- Two-digit zero-padded decimal (`strftime` `%m`, `%d`). -/
def pad2 (n : Nat) : List Char := [digitCharOf (n / 10), digitCharOf (n % 10)]

/-- Four-digit zero-padded decimal (`strftime` `%Y`; platforms differ on
zero padding below 1000, so theorems restrict to years ≥ 1000 where all
agree). -/
def pad4 (n : Nat) : List Char :=
  [digitCharOf (n / 1000), digitCharOf (n / 100 % 10),
   digitCharOf (n / 10 % 10), digitCharOf (n % 10)]

/-- `dt.strftime("%Y-%m-%d")`. -/
def isoOfDate (y m d : Nat) : String :=
  ⟨pad4 y ++ '-' :: (pad2 m ++ '-' :: pad2 d)⟩

/-- `_parse_date`: normalize a date like `03 Sep, 2025` to `2025-09-03`,
trying the two accepted formats in order; `None` when neither matches. -/
def _parse_date (s : String) : Option String :=
  let cs := (pyStrip s).data
  match tryFmt1 cs with
  | some (y, m, d) => some (isoOfDate y m d)
  | none =>
    match tryFmt2 cs with
    | some (y, m, d) => some (isoOfDate y m d)
    | none => none

/-! ### Data model -/

/-- One scraped `<tr>`: its full text and the texts of its `<td>` cells. -/
structure Row where
  text : String
  tds : List String
deriving DecidableEq

/-- One entry of `result["subjects"]`. -/
structure Subject where
  name : String
  present : Nat
  absent : Nat
  percentage : ℚ
  status : String
deriving DecidableEq

/-- One entry of `result["daily"]`. -/
structure DayCount where
  present : Nat
  absent : Nat
deriving DecidableEq

/-- `result["overall"]`. -/
structure Overall where
  present : Nat
  absent : Nat
  percentage : ℚ
  success : Bool
  message : Option String
deriving DecidableEq

/-- The structure returned by `calculate_attendance`. -/
structure AttendanceResult where
  subjects : List (String × Subject)
  overall : Overall
  daily : List (String × DayCount)
deriving DecidableEq

/-! ### Association lists (Python dict: ordered, unique keys) -/

/-- Dict lookup. -/
def alGet (k : String) : List (String × α) → Option α
  | [] => none
  | (k', v) :: rest => if k' = k then some v else alGet k rest

/-- Dict update of an existing key (first occurrence; keys are unique). -/
def alModify (k : String) (f : α → α) : List (String × α) → List (String × α)
  | [] => []
  | (k', v) :: rest =>
    if k' = k then (k', f v) :: rest else (k', v) :: alModify k f rest

/-- `if k not in d: d[k] = v` — append a fresh key, keep an existing one. -/
def alEnsure (k : String) (v : α) (xs : List (String × α)) : List (String × α) :=
  match alGet k xs with
  | some _ => xs
  | none => xs ++ [(k, v)]

/-! ### `calculate_attendance` -/

/-- `ensure_subject(code, name)`: create the subject with zero counts if
missing, never overwriting an existing entry. -/
def ensureSubject (code name : String) (xs : List (String × Subject)) :
    List (String × Subject) :=
  alEnsure code { name := name, present := 0, absent := 0,
                  percentage := 0, status := "" } xs

def subjIncP (s : Subject) : Subject := { s with present := s.present + 1 }
def subjIncA (s : Subject) : Subject := { s with absent := s.absent + 1 }
def dayIncP (d : DayCount) : DayCount := { d with present := d.present + 1 }
def dayIncA (d : DayCount) : DayCount := { d with absent := d.absent + 1 }

/-- The mutable state threaded through both parsing passes: the growing
`subjects` and `daily` dicts, the current-course pointer, and the running
`total_present` / `total_absent`. -/
structure ScanState where
  subjects : List (String × Subject)
  daily : List (String × DayCount)
  current : Option (String × String)
  totalPresent : Nat
  totalAbsent : Nat
deriving DecidableEq

/-- The subject-header regex `^\s*([A-Z]{2,}\d+)\s*[-:–]\s*(.+)$`
(`re.match`), on an already `strip`ped string — both call sites strip
first.  Greedy maximal munch is exact here: shortening the letter run
leaves a letter where a digit is required, and shortening the digit run
leaves a digit where `\s*[-:–]` is required.  On a stripped string
the tail after the separator matches `\s*(.+)$` iff after dropping its
leading whitespace it is non-empty and contains no newline. -/
def matchCourse (s : String) : Option (String × String) :=
  let cs := s.data.dropWhile isPySpace
  let letters := cs.takeWhile (fun c => 'A' ≤ c ∧ c ≤ 'Z')
  if letters.length < 2 then none
  else
    let r1 := cs.dropWhile (fun c => 'A' ≤ c ∧ c ≤ 'Z')
    let digits := r1.takeWhile Char.isDigit
    if digits.isEmpty then none
    else
      match (r1.dropWhile Char.isDigit).dropWhile isPySpace with
      | sep :: r3 =>
        if sep = '-' ∨ sep = ':' ∨ sep = '–' then
          let body := r3.dropWhile isPySpace
          if body.isEmpty ∨ body.contains '\n' then none
          else some (⟨letters ++ digits⟩, ⟨stripChars body⟩)
        else none
      | [] => none

/-- One iteration of the primary `for row in rows` loop. -/
def stepRow (st : ScanState) (row : Row) : ScanState :=
  let text := pyStrip row.text
  if text = "" then st
  else
    match matchCourse text with
    | some (code, name) =>
      { st with current := some (code, name),
                subjects := ensureSubject code name st.subjects }
    | none =>
      if 5 ≤ row.tds.length then
        let rawCols := row.tds.map pyStrip
        if rawCols.any (fun c => strContains (upperStr c) "S.NO") then st
        else
          match rawCols with
          | sno :: dateCol :: _period :: _topics :: statusCol :: _ =>
            if firstIsDigit sno then
              match _parse_date dateCol with
              | none => st
              | some dateKey =>
                let daily1 := alEnsure dateKey ⟨0, 0⟩ st.daily
                let statusUp := upperStr statusCol
                if strContains statusUp "PRESENT" then
                  { st with daily := alModify dateKey dayIncP daily1,
                            totalPresent := st.totalPresent + 1,
                            subjects :=
                              match st.current with
                              | some (code, name) =>
                                alModify code subjIncP
                                  (ensureSubject code name st.subjects)
                              | none => st.subjects }
                else if strContains statusUp "ABSENT" then
                  { st with daily := alModify dateKey dayIncA daily1,
                            totalAbsent := st.totalAbsent + 1,
                            subjects :=
                              match st.current with
                              | some (code, name) =>
                                alModify code subjIncA
                                  (ensureSubject code name st.subjects)
                              | none => st.subjects }
                else { st with daily := daily1 }
            else st
          | _ => st
      else st

/-! Fallback text parsing.  The row regex is
`(\d{1,2}\s+[A-Za-z]{3},\s+\d{4}).*(PRESENT|ABSENT)` (`re.search`,
case-insensitive).  `\d{1,2}` is deterministic because `\s+` follows
(see `_parse_date`); the greedy `.*` makes group 2 the rightmost
occurrence of either status word after the date, and `re.search` takes
the leftmost start position at which the whole pattern matches. -/

def startsWithCI (pat : List Char) (cs : List Char) : Bool :=
  pat.isPrefixOf (cs.map upperChar)

/-- The rightmost match of `(PRESENT|ABSENT)` (case-insensitive):
`some true` for PRESENT, `some false` for ABSENT. -/
def lastStatusGo : List Char → Option Bool → Option Bool
  | [], acc => acc
  | c :: rest, acc =>
    lastStatusGo rest
      (if startsWithCI "PRESENT".data (c :: rest) then some true
       else if startsWithCI "ABSENT".data (c :: rest) then some false
       else acc)

def isAsciiAlpha (c : Char) : Bool :=
  ('A' ≤ c ∧ c ≤ 'Z') ∨ ('a' ≤ c ∧ c ≤ 'z')

/-- Match `\s+[A-Za-z]{3},\s+\d{4}` after the day digits `dayChars`,
returning (group 1 text, remaining characters). -/
def matchAfterDay (dayChars : List Char) (cs : List Char) :
    Option (List Char × List Char) :=
  match cs with
  | c :: rest =>
    if isPySpace c then
      let ws1 := (c :: rest).takeWhile isPySpace
      match (c :: rest).dropWhile isPySpace with
      | a :: b :: c3 :: ',' :: r2 =>
        if isAsciiAlpha a ∧ isAsciiAlpha b ∧ isAsciiAlpha c3 then
          match r2 with
          | d :: rest3 =>
            if isPySpace d then
              let ws2 := (d :: rest3).takeWhile isPySpace
              match (d :: rest3).dropWhile isPySpace with
              | y1 :: y2 :: y3 :: y4 :: rest4 =>
                if y1.isDigit ∧ y2.isDigit ∧ y3.isDigit ∧ y4.isDigit then
                  some (dayChars ++ ws1 ++ [a, b, c3, ','] ++ ws2 ++
                        [y1, y2, y3, y4], rest4)
                else none
              | _ => none
            else none
          | [] => none
        else none
      | _ => none
    else none
  | [] => none

/-- Match `\d{1,2}\s+[A-Za-z]{3},\s+\d{4}` anchored at the start of `cs`. -/
def matchDateAt (cs : List Char) : Option (List Char × List Char) :=
  match cs with
  | c1 :: c2 :: rest2 =>
    if c1.isDigit then
      if c2.isDigit then matchAfterDay [c1, c2] rest2
      else matchAfterDay [c1] (c2 :: rest2)
    else none
  | _ => none

/-- `re.search` for the fallback row pattern: leftmost start position at
which the date part matches and a status word follows. -/
def searchRowGo : List Char → Option (List Char × Bool)
  | [] => none
  | c :: rest =>
    match matchDateAt (c :: rest) with
    | some (g1, after) =>
      match lastStatusGo after none with
      | some b => some (g1, b)
      | none => searchRowGo rest
    | none => searchRowGo rest

/-- `re.search(r"(\d{1,2}\s+[A-Za-z]{3},\s+\d{4}).*(PRESENT|ABSENT)", l,
re.IGNORECASE)`: group 1 and whether group 2 upper-cases to `PRESENT`. -/
def matchDateStatus (l : String) : Option (String × Bool) :=
  (searchRowGo l.data).map (fun p => (⟨p.1⟩, p.2))

/-- The fallback inner `while` loop: scan lines after a course header
until the next course header, counting matched date/status rows against
subject `code`. -/
def innerScan (code : String) : List String → ScanState → ScanState
  | [], st => st
  | l :: rest, st =>
    match matchCourse l with
    | some _ => st
    | none =>
      match matchDateStatus l with
      | none => innerScan code rest st
      | some (dateText, isPresent) =>
        match _parse_date dateText with
        | none => innerScan code rest st
        | some dateKey =>
          let daily1 := alEnsure dateKey ⟨0, 0⟩ st.daily
          let st' :=
            if isPresent then
              { st with daily := alModify dateKey dayIncP daily1,
                        subjects := alModify code subjIncP st.subjects,
                        totalPresent := st.totalPresent + 1 }
            else
              { st with daily := alModify dateKey dayIncA daily1,
                        subjects := alModify code subjIncA st.subjects,
                        totalAbsent := st.totalAbsent + 1 }
          innerScan code rest st'

/-- The fallback outer `for i, line in enumerate(lines)` loop: every
course-header line sets the current course and opens a sub-scan of the
following lines; other lines do nothing at the outer level. -/
def outerScan : List String → ScanState → ScanState
  | [], st => st
  | l :: rest, st =>
    match matchCourse l with
    | some (code, name) =>
      let st1 := { st with current := some (code, name),
                           subjects := ensureSubject code name st.subjects }
      outerScan rest (innerScan code rest st1)
    | none => outerScan rest st

/-- `[ln.strip() for ln in page_text.splitlines() if ln.strip()]`. -/
def fallbackLines (t : String) : List String :=
  ((pySplitlines t.data).map (fun cs => pyStrip ⟨cs⟩)).filter (fun l => l ≠ "")

def initState : ScanState :=
  { subjects := [], daily := [], current := none,
    totalPresent := 0, totalAbsent := 0 }

/-- The state after the primary TR/TD pass. -/
def structuredState (rows : List Row) : ScanState :=
  rows.foldl stepRow initState

/-- The state after both passes: the fallback runs only when the primary
pass left `daily` empty and a (truthy, i.e. non-empty) page text was
supplied. -/
def scanState (rows : List Row) (pageText : Option String) : ScanState :=
  let st1 := structuredState rows
  match pageText with
  | some t =>
    if st1.daily = [] ∧ t ≠ "" then outerScan (fallbackLines t) st1 else st1
  | none => st1

/-- Round half-to-even to an integer. -/
def roundHalfEven (x : ℚ) : ℤ :=
  let f := ⌊x⌋
  let r := x - (f : ℚ)
  if r < 1 / 2 then f
  else if 1 / 2 < r then f + 1
  else if f % 2 = 0 then f else f + 1

/-- Python `round(x, 2)` (on the exact rational value). -/
def rnd2 (x : ℚ) : ℚ := (roundHalfEven (x * 100) : ℚ) / 100

/-- The per-subject percentage/status computation at the end of
`calculate_attendance`. -/
def finalizeSubject (s : Subject) : Subject :=
  let t := s.present + s.absent
  if 0 < t then
    let pct := rnd2 ((s.present : ℚ) / (t : ℚ) * 100)
    { s with percentage := pct,
             status := if pct < 65 then "Shortage"
                       else if pct < 75 then "Condonation"
                       else "" }
  else s

/-- The final assembly: subject percentages/statuses and the overall
summary. -/
def finalize (st : ScanState) : AttendanceResult :=
  { subjects := st.subjects.map (fun p => (p.1, finalizeSubject p.2)),
    daily := st.daily,
    overall :=
      if 0 < st.totalPresent + st.totalAbsent then
        { present := st.totalPresent, absent := st.totalAbsent,
          percentage := rnd2 ((st.totalPresent : ℚ) /
            ((st.totalPresent + st.totalAbsent : Nat) : ℚ) * 100),
          success := true, message := none }
      else
        { present := 0, absent := 0, percentage := 0,
          success := false, message := some "No attendance rows found." } }

/-- `calculate_attendance(rows, page_text)`. -/
def calculate_attendance (rows : List Row) (pageText : Option String) :
    AttendanceResult :=
  finalize (scanState rows pageText)

/-- The (present, absent) counters recorded for a subject code, zero when
the code has no entry yet. -/
def subjCounts (st : ScanState) (code : String) : Nat × Nat :=
  match alGet code st.subjects with
  | none => (0, 0)
  | some s => (s.present, s.absent)

/-- The spec's worked example: the `ACSD29` header row followed by one
PRESENT and one ABSENT data row. -/
def rows6 : List Row :=
  [ { text := "ACSD29 - Engineering Design Project",
      tds := ["ACSD29 - Engineering Design Project"] },
    { text := "1 03 Sep, 2025 6 topic PRESENT",
      tds := ["1", "03 Sep, 2025", "6", "topic", "PRESENT"] },
    { text := "2 04 Sep, 2025 6 topic ABSENT",
      tds := ["2", "04 Sep, 2025", "6", "topic", "ABSENT"] } ]

/-- A data row whose status cell contains neither PRESENT nor ABSENT. -/
def rowLeave : Row :=
  { text := "1 03 Sep, 2025 6 topic LEAVE",
    tds := ["1", "03 Sep, 2025", "6", "topic", "LEAVE"] }

/-- The finished `ACSD29` subject entry of the worked example. -/
def subjW : Subject :=
  { name := "Engineering Design Project", present := 1, absent := 1,
    percentage := 50, status := "Shortage" }

/-- The scan state the worked example produces before finalization. -/
def scan6 : ScanState :=
  { subjects := [("ACSD29",
      { name := "Engineering Design Project", present := 1, absent := 1,
        percentage := 0, status := "" })],
    daily := [("2025-09-03", { present := 1, absent := 0 }),
              ("2025-09-04", { present := 0, absent := 1 })],
    current := some ("ACSD29", "Engineering Design Project"),
    totalPresent := 1, totalAbsent := 1 }

/-- Subjects created during the scan carry percentage 0 and empty status
until finalization. -/
def subjZeroed (xs : List (String × Subject)) : Prop :=
  ∀ p ∈ xs, p.2.percentage = 0 ∧ p.2.status = ""

/-- Sum of the per-day present counters. -/
def dailySumP (xs : List (String × DayCount)) : Nat :=
  (xs.map (fun p => p.2.present)).sum

/-- Sum of the per-day absent counters. -/
def dailySumA (xs : List (String × DayCount)) : Nat :=
  (xs.map (fun p => p.2.absent)).sum

/-- The running overall totals always equal the sums of the daily
counters. -/
def sumInv (st : ScanState) : Prop :=
  dailySumP st.daily = st.totalPresent ∧ dailySumA st.daily = st.totalAbsent

def monthName : Nat → List Char
  | 1 => ['J', 'a', 'n'] | 2 => ['F', 'e', 'b'] | 3 => ['M', 'a', 'r']
  | 4 => ['A', 'p', 'r'] | 5 => ['M', 'a', 'y'] | 6 => ['J', 'u', 'n']
  | 7 => ['J', 'u', 'l'] | 8 => ['A', 'u', 'g'] | 9 => ['S', 'e', 'p']
  | 10 => ['O', 'c', 't'] | 11 => ['N', 'o', 'v'] | 12 => ['D', 'e', 'c']
  | _ => []

/-- The text `DD Mon, YYYY` (first accepted format). -/
def renderFmt1 (d m y : Nat) : String :=
  ⟨pad2 d ++ ' ' :: (monthName m ++ ',' :: ' ' :: pad4 y)⟩

/-- The text `DD Mon YYYY` (second accepted format). -/
def renderFmt2 (d m y : Nat) : String :=
  ⟨pad2 d ++ ' ' :: (monthName m ++ ' ' :: pad4 y)⟩

/-! ## Theorems -/

theorem alGet_append_single (k k' : String) (v : α) (xs : List (String × α)) :
    alGet k (xs ++ [(k', v)]) =
      match alGet k xs with
      | some w => some w
      | none => if k' = k then some v else none := by
  induction xs with
  | nil => simp [alGet]
  | cons p rest ih =>
    obtain ⟨k0, v0⟩ := p
    by_cases h : k0 = k
    · simp [alGet, h]
    · simp [alGet, h, ih]

theorem subjCounts_ensure (code name : String) (xs : List (String × Subject))
    (code' : String) :
    (match alGet code' (ensureSubject code name xs) with
      | none => ((0 : Nat), (0 : Nat))
      | some s => (s.present, s.absent)) =
    (match alGet code' xs with
      | none => ((0 : Nat), (0 : Nat))
      | some s => (s.present, s.absent)) := by
  unfold ensureSubject alEnsure
  cases h : alGet code xs with
  | some s => rfl
  | none =>
    rw [alGet_append_single]
    cases h' : alGet code' xs with
    | some s => rfl
    | none =>
      by_cases hk : code = code' <;> simp [hk]

/-- Evaluation of the worked example up to (but excluding) the
percentage/status finalization: pure `Nat`/`String` computation. -/
theorem rows6_scan : scanState rows6 none = scan6 := by decide

/-- Full evaluation of the worked example, finalization included. -/
theorem rows6_result : calculate_attendance rows6 none =
    { subjects := [("ACSD29", subjW)],
      overall := { present := 1, absent := 1, percentage := 50,
                   success := true, message := none },
      daily := [("2025-09-03", { present := 1, absent := 0 }),
                ("2025-09-04", { present := 0, absent := 1 })] } := by
  rw [calculate_attendance, rows6_scan]
  unfold finalize finalizeSubject scan6 subjW
  norm_num [rnd2, roundHalfEven]

/-- C6: on the spec's worked example — the `ACSD29` header row, a PRESENT
data row for 03 Sep 2025 and an ABSENT data row for 04 Sep 2025 —
`calculate_attendance` returns subject `ACSD29` with counts 1/1,
percentage 50, status `Shortage`; daily entries (1,0) for 2025-09-03 and
(0,1) for 2025-09-04; and overall totals 1/1, percentage 50, success. -/
theorem c6_worked_example :
    alGet "ACSD29" (calculate_attendance rows6 none).subjects =
      some { name := "Engineering Design Project", present := 1, absent := 1,
             percentage := 50, status := "Shortage" } ∧
    alGet "2025-09-03" (calculate_attendance rows6 none).daily =
      some { present := 1, absent := 0 } ∧
    alGet "2025-09-04" (calculate_attendance rows6 none).daily =
      some { present := 0, absent := 1 } ∧
    (calculate_attendance rows6 none).overall.present = 1 ∧
    (calculate_attendance rows6 none).overall.absent = 1 ∧
    (calculate_attendance rows6 none).overall.percentage = 50 ∧
    (calculate_attendance rows6 none).overall.success = true := by
  rw [rows6_result]
  refine ⟨rfl, rfl, rfl, rfl, rfl, rfl, rfl⟩

theorem alGet_mapVal {α β : Type} (k : String) (g : α → β)
    (xs : List (String × α)) :
    alGet k (xs.map (fun p => (p.1, g p.2))) = (alGet k xs).map g := by
  induction xs with
  | nil => rfl
  | cons p rest ih =>
    obtain ⟨k0, v0⟩ := p
    by_cases h : k0 = k <;> simp [alGet, h, ih]

theorem alGet_mem {α : Type} (k : String) (v : α) (xs : List (String × α))
    (h : alGet k xs = some v) : (k, v) ∈ xs := by
  induction xs with
  | nil => simp [alGet] at h
  | cons p rest ih =>
    obtain ⟨k0, v0⟩ := p
    by_cases hk : k0 = k
    · simp [alGet, hk] at h
      subst hk h
      exact List.mem_cons_self _ _
    · simp [alGet, hk] at h
      exact List.mem_cons_of_mem _ (ih h)

theorem alModify_pred {α : Type} {P : α → Prop} (k : String) (f : α → α)
    (xs : List (String × α)) (hf : ∀ v, P v → P (f v))
    (h : ∀ p ∈ xs, P p.2) : ∀ p ∈ alModify k f xs, P p.2 := by
  induction xs with
  | nil => exact h
  | cons p rest ih =>
    obtain ⟨k0, v0⟩ := p
    by_cases hk : k0 = k
    · simp only [alModify, hk, if_true]
      intro q hq
      rcases List.mem_cons.mp hq with h1 | h2
      · subst h1
        exact hf v0 (h (k0, v0) (List.mem_cons_self _ _))
      · exact h q (List.mem_cons_of_mem _ h2)
    · simp only [alModify, hk, if_false]
      intro q hq
      rcases List.mem_cons.mp hq with h1 | h2
      · subst h1
        exact h (k0, v0) (List.mem_cons_self _ _)
      · exact ih (fun p hp => h p (List.mem_cons_of_mem _ hp)) q h2

theorem alEnsure_pred {α : Type} {P : α → Prop} (k : String) (v : α)
    (xs : List (String × α)) (hv : P v)
    (h : ∀ p ∈ xs, P p.2) : ∀ p ∈ alEnsure k v xs, P p.2 := by
  unfold alEnsure
  cases alGet k xs with
  | some w => exact h
  | none =>
    intro q hq
    rcases List.mem_append.mp hq with h1 | h2
    · exact h q h1
    · simp at h2
      subst h2
      exact hv

theorem subjZeroed_ensure (code name : String) (xs : List (String × Subject))
    (h : subjZeroed xs) : subjZeroed (ensureSubject code name xs) := fun p hp =>
  alEnsure_pred (P := fun s : Subject => s.percentage = 0 ∧ s.status = "")
    code _ xs ⟨rfl, rfl⟩ (fun q hq => h q hq) p hp

theorem subjZeroed_modify (code : String) (f : Subject → Subject)
    (hf : ∀ s : Subject, (s.percentage = 0 ∧ s.status = "") →
      (f s).percentage = 0 ∧ (f s).status = "")
    (xs : List (String × Subject)) (h : subjZeroed xs) :
    subjZeroed (alModify code f xs) := fun p hp =>
  alModify_pred (P := fun s : Subject => s.percentage = 0 ∧ s.status = "")
    code f xs hf (fun q hq => h q hq) p hp

theorem subjZeroed_stepRow (st : ScanState) (row : Row)
    (h : subjZeroed st.subjects) : subjZeroed (stepRow st row).subjects := by
  unfold stepRow
  repeat' split
  all_goals try dsimp only
  all_goals repeat' split
  all_goals try dsimp only
  all_goals
    first
    | exact h
    | exact subjZeroed_ensure _ _ _ h
    | exact subjZeroed_modify _ subjIncP (fun s hs => hs)
        _ (subjZeroed_ensure _ _ _ h)
    | exact subjZeroed_modify _ subjIncA (fun s hs => hs)
        _ (subjZeroed_ensure _ _ _ h)

theorem subjZeroed_innerScan (code : String) (ls : List String)
    (st : ScanState) (h : subjZeroed st.subjects) :
    subjZeroed (innerScan code ls st).subjects := by
  induction ls generalizing st with
  | nil => exact h
  | cons l rest ih =>
    unfold innerScan
    repeat' split
    all_goals try dsimp only
    all_goals
      first
      | exact h
      | exact ih _ h
      | exact ih _ (subjZeroed_modify _ subjIncP (fun s hs => hs) _ h)
      | exact ih _ (subjZeroed_modify _ subjIncA (fun s hs => hs) _ h)

theorem subjZeroed_outerScan (ls : List String) (st : ScanState)
    (h : subjZeroed st.subjects) :
    subjZeroed (outerScan ls st).subjects := by
  induction ls generalizing st with
  | nil => exact h
  | cons l rest ih =>
    unfold outerScan
    split
    · exact ih _ (subjZeroed_innerScan _ rest _ (subjZeroed_ensure _ _ _ h))
    · exact ih _ h

theorem subjZeroed_foldl (rows : List Row) (st : ScanState)
    (h : subjZeroed st.subjects) :
    subjZeroed (rows.foldl stepRow st).subjects := by
  induction rows generalizing st with
  | nil => exact h
  | cons r rest ih => exact ih _ (subjZeroed_stepRow _ _ h)

theorem subjZeroed_scanState (rows : List Row) (pt : Option String) :
    subjZeroed (scanState rows pt).subjects := by
  have h0 : subjZeroed initState.subjects := by
    intro p hp
    simp [initState] at hp
  have h1 : subjZeroed (structuredState rows).subjects :=
    subjZeroed_foldl rows initState h0
  unfold scanState
  cases pt with
  | none => exact h1
  | some t =>
    dsimp only
    split
    · exact subjZeroed_outerScan _ _ h1
    · exact h1

/-- Any subject entry of the returned result is the finalization of a
subject entry of the scan state. -/
theorem calc_subject_eq (rows : List Row) (pt : Option String)
    (code : String) (sub : Subject)
    (h : alGet code (calculate_attendance rows pt).subjects = some sub) :
    ∃ sub0, alGet code (scanState rows pt).subjects = some sub0 ∧
      sub = finalizeSubject sub0 := by
  simp only [calculate_attendance, finalize] at h
  rw [alGet_mapVal] at h
  rcases Option.map_eq_some'.mp h with ⟨sub0, hget, hfin⟩
  exact ⟨sub0, hget, hfin.symm⟩

theorem finalizeSubject_present (s : Subject) :
    (finalizeSubject s).present = s.present := by
  by_cases h : 0 < s.present + s.absent <;> simp [finalizeSubject, h]

theorem finalizeSubject_absent (s : Subject) :
    (finalizeSubject s).absent = s.absent := by
  by_cases h : 0 < s.present + s.absent <;> simp [finalizeSubject, h]

/-- The threshold bands of the status label, as an exact three-way
classification of the rounded percentage. -/
theorem statusBands (p : ℚ) :
    ((if p < 65 then "Shortage" else if p < 75 then "Condonation" else "")
        = "Shortage" ↔ p < 65) ∧
    ((if p < 65 then "Shortage" else if p < 75 then "Condonation" else "")
        = "Condonation" ↔ 65 ≤ p ∧ p < 75) ∧
    ((if p < 65 then "Shortage" else if p < 75 then "Condonation" else "")
        = "" ↔ 75 ≤ p) := by
  by_cases h1 : p < 65
  · simp [h1, not_le.mpr h1, not_le.mpr (show p < 75 by linarith)]
  · by_cases h2 : p < 75
    · simp [h1, h2, not_lt.mp h1, not_le.mpr h2]
    · simp [h1, h2, not_lt.mp h2]

/-- C1: every subject entry of the result with present+absent > 0 carries
percentage `round(present/(present+absent)*100, 2)`; every subject entry
with present+absent = 0 carries percentage 0 and empty status. -/
theorem c1_subject_percentage (rows : List Row) (pt : Option String)
    (code : String) (sub : Subject)
    (h : alGet code (calculate_attendance rows pt).subjects = some sub) :
    (0 < sub.present + sub.absent →
      sub.percentage = rnd2 ((sub.present : ℚ) /
        ((sub.present + sub.absent : Nat) : ℚ) * 100)) ∧
    (sub.present + sub.absent = 0 →
      sub.percentage = 0 ∧ sub.status = "") := by
  rcases calc_subject_eq rows pt code sub h with ⟨sub0, hget, hfin⟩
  subst hfin
  by_cases ht : 0 < sub0.present + sub0.absent
  · constructor
    · intro h1
      rw [finalizeSubject_present, finalizeSubject_absent]
      unfold finalizeSubject
      rw [if_pos ht]
    · intro h0
      rw [finalizeSubject_present, finalizeSubject_absent] at h0
      omega
  · have heq : finalizeSubject sub0 = sub0 := by
      unfold finalizeSubject
      rw [if_neg ht]
    rw [heq]
    constructor
    · intro h1
      omega
    · intro h0
      exact subjZeroed_scanState rows pt (code, sub0) (alGet_mem _ _ _ hget)

/-- C1 witness: the `ACSD29` subject of the worked example satisfies the
positive branch. -/
theorem c1_subject_percentage_witness :
    0 < subjW.present + subjW.absent ∧
    subjW.percentage = rnd2 ((subjW.present : ℚ) /
      ((subjW.present + subjW.absent : Nat) : ℚ) * 100) := by
  refine ⟨by decide, ?_⟩
  exact (c1_subject_percentage rows6 none "ACSD29" subjW
    (by rw [rows6_result]; rfl)).1 (by decide)

/-- C2: for every subject entry of the result with present+absent > 0,
the status is `Shortage` exactly when the computed (rounded) percentage
is below 65, `Condonation` exactly when it is at least 65 and below 75,
and empty exactly when it is at least 75. -/
theorem c2_status_thresholds (rows : List Row) (pt : Option String)
    (code : String) (sub : Subject)
    (h : alGet code (calculate_attendance rows pt).subjects = some sub)
    (ht : 0 < sub.present + sub.absent) :
    (sub.status = "Shortage" ↔ sub.percentage < 65) ∧
    (sub.status = "Condonation" ↔ 65 ≤ sub.percentage ∧ sub.percentage < 75) ∧
    (sub.status = "" ↔ 75 ≤ sub.percentage) := by
  rcases calc_subject_eq rows pt code sub h with ⟨sub0, hget, hfin⟩
  rw [hfin, finalizeSubject_present, finalizeSubject_absent] at ht
  subst hfin
  unfold finalizeSubject
  rw [if_pos ht]
  exact statusBands _

/-- C2 witness: the worked example's subject sits in the Shortage band. -/
theorem c2_status_thresholds_witness :
    subjW.status = "Shortage" ↔ subjW.percentage < 65 := by
  exact (c2_status_thresholds rows6 none "ACSD29" subjW
    (by rw [rows6_result]; rfl) (by decide)).1

/-- C3: when no data row contributed a present or absent count (the
running totals are both zero after both passes), the overall summary has
`success = false` and the message `No attendance rows found.`; when the
totals are positive, `success = true`, the overall counts are the totals,
and the overall percentage is `round(present/(present+absent)*100, 2)`. -/
theorem c3_overall_summary (rows : List Row) (pt : Option String) :
    ((scanState rows pt).totalPresent + (scanState rows pt).totalAbsent = 0 →
      (calculate_attendance rows pt).overall.success = false ∧
      (calculate_attendance rows pt).overall.message =
        some "No attendance rows found.") ∧
    (0 < (scanState rows pt).totalPresent + (scanState rows pt).totalAbsent →
      (calculate_attendance rows pt).overall.success = true ∧
      (calculate_attendance rows pt).overall.present =
        (scanState rows pt).totalPresent ∧
      (calculate_attendance rows pt).overall.absent =
        (scanState rows pt).totalAbsent ∧
      (calculate_attendance rows pt).overall.percentage =
        rnd2 (((scanState rows pt).totalPresent : ℚ) /
          (((scanState rows pt).totalPresent +
            (scanState rows pt).totalAbsent : Nat) : ℚ) * 100)) := by
  simp only [calculate_attendance, finalize]
  constructor
  · intro h
    rw [if_neg (by omega)]
    exact ⟨rfl, rfl⟩
  · intro h
    rw [if_pos h]
    exact ⟨rfl, rfl, rfl, rfl⟩

/-- C3 witness: the empty input really reaches the zero-total branch and
the worked example really reaches the positive branch. -/
theorem c3_overall_summary_witness :
    ((calculate_attendance [] none).overall.success = false ∧
     (calculate_attendance [] none).overall.message =
       some "No attendance rows found.") ∧
    (calculate_attendance rows6 none).overall.success = true := by
  refine ⟨(c3_overall_summary [] none).1 (by decide), ?_⟩
  exact ((c3_overall_summary rows6 none).2 (by decide)).1

/-- C4: whenever the structured row scan produced at least one daily
entry, supplying a raw page text changes nothing — the fallback pass
contributes to no part of the result.  (The converse direction is
structural: `scanState` runs `outerScan` only under
`st1.daily = [] ∧ t ≠ ""`.) -/
theorem c4_no_fallback_given_structured_data (rows : List Row)
    (pt : Option String) (h : (structuredState rows).daily ≠ []) :
    calculate_attendance rows pt = calculate_attendance rows none := by
  unfold calculate_attendance scanState
  cases pt with
  | none => rfl
  | some t => simp [h]

/-- C4 witness: the worked example's structured scan fills `daily`, so a
page text that would otherwise be double-counted is ignored. -/
theorem c4_no_fallback_given_structured_data_witness :
    (structuredState rows6).daily ≠ [] ∧
    calculate_attendance rows6
        (some "ACSD29 - Engineering Design Project\n1 03 Sep, 2025 6 topic PRESENT")
      = calculate_attendance rows6 none := by
  refine ⟨by decide, ?_⟩
  exact c4_no_fallback_given_structured_data rows6 _ (by decide)

/-- C5 counterexample: the claim says a data row with a valid date but a
status cell containing neither PRESENT nor ABSENT leaves the entire
result — including the daily mapping — unchanged.  The concrete row
`[1, 03 Sep, 2025, 6, topic, LEAVE]` refutes this: the code materializes
a zero daily entry for the parsed date before inspecting the status, so
the result differs from that of the empty input. -/
theorem c5_ignored_row_changes_daily :
    calculate_attendance [rowLeave] none ≠ calculate_attendance [] none ∧
    (calculate_attendance [rowLeave] none).daily =
      [("2025-09-03", { present := 0, absent := 0 })] := by
  refine ⟨?_, by decide⟩
  intro h
  have hd := congrArg (fun r => r.daily) h
  simp at hd
  exact absurd hd (by decide)

/-- C5 amended: a data row with a valid date whose status cell contains
neither PRESENT nor ABSENT leaves the subjects, the current-course
pointer and the running totals unchanged, and changes the daily mapping
only by ensuring a zero entry exists for the parsed date. -/
theorem c5_neither_status_row (st : ScanState) (row : Row)
    (sno dateCol pc tc statusCol : String) (restCols : List String)
    (k : String)
    (htext : pyStrip row.text ≠ "")
    (hcourse : matchCourse (pyStrip row.text) = none)
    (hcols : row.tds.map pyStrip =
      sno :: dateCol :: pc :: tc :: statusCol :: restCols)
    (hhdr : (sno :: dateCol :: pc :: tc :: statusCol :: restCols).any
      (fun c => strContains (upperStr c) "S.NO") = false)
    (hsno : firstIsDigit sno = true)
    (hdate : _parse_date dateCol = some k)
    (hnp : strContains (upperStr statusCol) "PRESENT" = false)
    (hna : strContains (upperStr statusCol) "ABSENT" = false) :
    stepRow st row = { st with daily := alEnsure k ⟨0, 0⟩ st.daily } := by
  have hlen : 5 ≤ row.tds.length := by
    have h := congrArg List.length hcols
    simp at h
    omega
  unfold stepRow
  simp only [htext, if_false, hcourse, hcols, hhdr, hlen, if_true, hsno,
    hdate, hnp, hna]
  simp [hlen, htext]

/-- C5 amended witness: the LEAVE row applied to the initial state. -/
theorem c5_neither_status_row_witness :
    stepRow initState rowLeave =
      { initState with
        daily := alEnsure "2025-09-03" { present := 0, absent := 0 }
          initState.daily } := by
  exact c5_neither_status_row initState rowLeave "1" "03 Sep, 2025" "6"
    "topic" "LEAVE" [] "2025-09-03" (by decide) (by decide) (by decide)
    (by decide) (by decide) (by decide) (by decide) (by decide)

/-- C8: a data row (five-plus cells, not a course header, not a header
row, serial starting with a digit) whose date cell matches neither
accepted date format is skipped silently: `_parse_date` returns `none`
(it is a total function) and processing the row returns the state
unchanged — no counter moves and no error is recorded anywhere. -/
theorem c8_bad_date_row_skipped (st : ScanState) (row : Row)
    (sno dateCol pc tc statusCol : String) (restCols : List String)
    (hcourse : matchCourse (pyStrip row.text) = none)
    (hcols : row.tds.map pyStrip =
      sno :: dateCol :: pc :: tc :: statusCol :: restCols)
    (hhdr : (sno :: dateCol :: pc :: tc :: statusCol :: restCols).any
      (fun c => strContains (upperStr c) "S.NO") = false)
    (hsno : firstIsDigit sno = true)
    (hdate : _parse_date dateCol = none) :
    stepRow st row = st := by
  have hlen : 5 ≤ row.tds.length := by
    have h := congrArg List.length hcols
    simp at h
    omega
  unfold stepRow
  by_cases ht : pyStrip row.text = ""
  · simp [ht]
  · simp only [ht, if_false, hcourse, hcols, hhdr, hlen, if_true, hsno, hdate]
    simp [hlen]

/-- C8 witness: a concrete row whose date cell `31 Feb, 2025` matches the
textual shape of the first format but names an impossible date, so
`_parse_date` rejects it and the row leaves every state unchanged. -/
theorem c8_bad_date_row_skipped_witness :
    _parse_date "31 Feb, 2025" = none ∧
    stepRow initState
      { text := "1 31 Feb, 2025 6 topic PRESENT",
        tds := ["1", "31 Feb, 2025", "6", "topic", "PRESENT"] } = initState := by
  refine ⟨by decide, ?_⟩
  exact c8_bad_date_row_skipped initState _ "1" "31 Feb, 2025" "6" "topic"
    "PRESENT" [] (by decide) (by decide) (by decide) (by decide) (by decide)

/-- C9: a row with five or more cells one of which contains `S.NO`
(case-insensitively) is never counted as data: it changes no daily
counter, no running overall total, and no subject's present/absent
counts. -/
theorem c9_header_row_not_counted (st : ScanState) (row : Row)
    (hlen : 5 ≤ row.tds.length)
    (hhdr : (row.tds.map pyStrip).any
      (fun c => strContains (upperStr c) "S.NO") = true) :
    (stepRow st row).daily = st.daily ∧
    (stepRow st row).totalPresent = st.totalPresent ∧
    (stepRow st row).totalAbsent = st.totalAbsent ∧
    ∀ code, subjCounts (stepRow st row) code = subjCounts st code := by
  unfold stepRow
  by_cases ht : pyStrip row.text = ""
  · simp [ht]
  · cases hc : matchCourse (pyStrip row.text) with
    | some p =>
      obtain ⟨code, name⟩ := p
      simp only [ht, if_false, hc]
      refine ⟨trivial, trivial, trivial, ?_⟩
      intro code'
      simpa [subjCounts] using subjCounts_ensure code name st.subjects code'
    | none =>
      simp [ht, hc, hhdr, hlen]

/-- C9 witness: the concrete header row `S.No | Date | ... | Status`
changes nothing about a state that already holds one counted subject. -/
theorem c9_header_row_not_counted_witness :
    (stepRow initState
      { text := "S.No Date Period Topics Status Remarks",
        tds := ["S.No", "Date", "Period", "Topics", "Status", "Remarks"] }).daily
        = initState.daily ∧
    ∀ code, subjCounts (stepRow initState
      { text := "S.No Date Period Topics Status Remarks",
        tds := ["S.No", "Date", "Period", "Topics", "Status", "Remarks"] }) code
        = subjCounts initState code := by
  have h := c9_header_row_not_counted initState
    { text := "S.No Date Period Topics Status Remarks",
      tds := ["S.No", "Date", "Period", "Topics", "Status", "Remarks"] }
    (by decide) (by decide)
  exact ⟨h.1, h.2.2.2⟩

theorem alGet_alEnsure_isSome {α : Type} (k : String) (v : α)
    (xs : List (String × α)) : (alGet k (alEnsure k v xs)).isSome := by
  unfold alEnsure
  cases h : alGet k xs with
  | some w => simp [h]
  | none => simp [alGet_append_single, h]

theorem dailySumP_alEnsure (k : String) (xs : List (String × DayCount)) :
    dailySumP (alEnsure k ⟨0, 0⟩ xs) = dailySumP xs := by
  unfold alEnsure
  cases alGet k xs <;> simp [dailySumP]

theorem dailySumA_alEnsure (k : String) (xs : List (String × DayCount)) :
    dailySumA (alEnsure k ⟨0, 0⟩ xs) = dailySumA xs := by
  unfold alEnsure
  cases alGet k xs <;> simp [dailySumA]

theorem dailySumP_incP (k : String) (xs : List (String × DayCount))
    (h : (alGet k xs).isSome) :
    dailySumP (alModify k dayIncP xs) = dailySumP xs + 1 := by
  induction xs with
  | nil => simp [alGet] at h
  | cons p rest ih =>
    obtain ⟨k0, v0⟩ := p
    by_cases hk : k0 = k
    · simp [alModify, hk, dailySumP, dayIncP]
      omega
    · simp only [alGet, hk, if_false] at h
      have hih := ih h
      unfold dailySumP at hih ⊢
      simp only [alModify, hk, if_false, List.map_cons, List.sum_cons]
      omega

theorem dailySumP_incA (k : String) (xs : List (String × DayCount)) :
    dailySumP (alModify k dayIncA xs) = dailySumP xs := by
  induction xs with
  | nil => rfl
  | cons p rest ih =>
    obtain ⟨k0, v0⟩ := p
    by_cases hk : k0 = k
    · simp [alModify, hk, dailySumP, dayIncA]
    · unfold dailySumP at ih ⊢
      simp only [alModify, hk, if_false, List.map_cons, List.sum_cons]
      omega

theorem dailySumA_incA (k : String) (xs : List (String × DayCount))
    (h : (alGet k xs).isSome) :
    dailySumA (alModify k dayIncA xs) = dailySumA xs + 1 := by
  induction xs with
  | nil => simp [alGet] at h
  | cons p rest ih =>
    obtain ⟨k0, v0⟩ := p
    by_cases hk : k0 = k
    · simp [alModify, hk, dailySumA, dayIncA]
      omega
    · simp only [alGet, hk, if_false] at h
      have hih := ih h
      unfold dailySumA at hih ⊢
      simp only [alModify, hk, if_false, List.map_cons, List.sum_cons]
      omega

theorem dailySumA_incP (k : String) (xs : List (String × DayCount)) :
    dailySumA (alModify k dayIncP xs) = dailySumA xs := by
  induction xs with
  | nil => rfl
  | cons p rest ih =>
    obtain ⟨k0, v0⟩ := p
    by_cases hk : k0 = k
    · simp [alModify, hk, dailySumA, dayIncP]
    · unfold dailySumA at ih ⊢
      simp only [alModify, hk, if_false, List.map_cons, List.sum_cons]
      omega

theorem sumInv_stepRow (st : ScanState) (row : Row) (h : sumInv st) :
    sumInv (stepRow st row) := by
  unfold stepRow
  repeat' split
  all_goals try dsimp only
  all_goals repeat' split
  all_goals
    first
    | exact h
    | exact ⟨h.1, h.2⟩
    | exact ⟨by rw [dailySumP_incP _ _ (alGet_alEnsure_isSome _ _ _),
               dailySumP_alEnsure, h.1],
             by rw [dailySumA_incP, dailySumA_alEnsure]; exact h.2⟩
    | exact ⟨by rw [dailySumP_incA, dailySumP_alEnsure]; exact h.1,
             by rw [dailySumA_incA _ _ (alGet_alEnsure_isSome _ _ _),
               dailySumA_alEnsure, h.2]⟩
    | exact ⟨by rw [dailySumP_alEnsure]; exact h.1,
             by rw [dailySumA_alEnsure]; exact h.2⟩

theorem sumInv_innerScan (code : String) (ls : List String) (st : ScanState)
    (h : sumInv st) : sumInv (innerScan code ls st) := by
  induction ls generalizing st with
  | nil => exact h
  | cons l rest ih =>
    unfold innerScan
    repeat' split
    all_goals try dsimp only
    all_goals
      first
      | exact h
      | exact ih _ h
      | exact ih _ ⟨by rw [dailySumP_incP _ _ (alGet_alEnsure_isSome _ _ _),
                    dailySumP_alEnsure, h.1],
                  by rw [dailySumA_incP, dailySumA_alEnsure]; exact h.2⟩
      | exact ih _ ⟨by rw [dailySumP_incA, dailySumP_alEnsure]; exact h.1,
                  by rw [dailySumA_incA _ _ (alGet_alEnsure_isSome _ _ _),
                    dailySumA_alEnsure, h.2]⟩

theorem sumInv_outerScan (ls : List String) (st : ScanState)
    (h : sumInv st) : sumInv (outerScan ls st) := by
  induction ls generalizing st with
  | nil => exact h
  | cons l rest ih =>
    unfold outerScan
    split
    · exact ih _ (sumInv_innerScan _ rest _ ⟨h.1, h.2⟩)
    · exact ih _ h

theorem sumInv_scanState (rows : List Row) (pt : Option String) :
    sumInv (scanState rows pt) := by
  have h0 : sumInv initState := ⟨rfl, rfl⟩
  have h1 : sumInv (structuredState rows) := by
    unfold structuredState
    have : ∀ (rs : List Row) (st : ScanState), sumInv st →
        sumInv (rs.foldl stepRow st) := by
      intro rs
      induction rs with
      | nil => exact fun st hst => hst
      | cons r rest ih => exact fun st hst => ih _ (sumInv_stepRow _ _ hst)
    exact this rows initState h0
  unfold scanState
  cases pt with
  | none => exact h1
  | some t =>
    dsimp only
    split
    · exact sumInv_outerScan _ _ h1
    · exact h1

/-- C10: in every result, the overall present count equals the sum of
the daily present counters and the overall absent count equals the sum
of the daily absent counters: each daily increment is paired with the
matching total increment on both the structured and the fallback path. -/
theorem c10_overall_equals_daily_sums (rows : List Row) (pt : Option String) :
    (calculate_attendance rows pt).overall.present =
      dailySumP (calculate_attendance rows pt).daily ∧
    (calculate_attendance rows pt).overall.absent =
      dailySumA (calculate_attendance rows pt).daily := by
  have h := sumInv_scanState rows pt
  simp only [calculate_attendance, finalize]
  by_cases hpos : 0 < (scanState rows pt).totalPresent +
      (scanState rows pt).totalAbsent
  · rw [if_pos hpos]
    exact ⟨h.1.symm, h.2.symm⟩
  · rw [if_neg hpos]
    dsimp only
    constructor
    · have := h.1
      omega
    · have := h.2
      omega

theorem digitCharOf_isDigit (n : Nat) (h : n < 10) :
    (digitCharOf n).isDigit = true := by
  interval_cases n <;> decide

theorem digitCharOf_val (n : Nat) (h : n < 10) :
    (digitCharOf n).toNat - 48 = n := by
  interval_cases n <;> decide

theorem isPySpace_digitCharOf (n : Nat) (h : n < 10) :
    isPySpace (digitCharOf n) = false := by
  interval_cases n <;> decide

theorem daysInMonth_le (m y : Nat) : daysInMonth m y ≤ 31 := by
  unfold daysInMonth
  split
  · split <;> omega
  · split <;> omega

theorem parseDayChars_pad2 (d : Nat) (h1 : 1 ≤ d) (h2 : d ≤ 31)
    (rest : List Char) :
    parseDayChars (pad2 d ++ rest) = some (d, rest) := by
  have ha := digitCharOf_isDigit (d / 10) (by omega)
  have hb := digitCharOf_isDigit (d % 10) (by omega)
  have ha2 := digitCharOf_val (d / 10) (by omega)
  have hb2 := digitCharOf_val (d % 10) (by omega)
  simp only [pad2, List.cons_append, List.nil_append, parseDayChars, ha, hb,
    if_true, ha2, hb2]
  rw [if_pos (by omega)]
  have : 10 * (d / 10) + d % 10 = d := by omega
  rw [this]

theorem parseWs1_single (c : Char) (rest : List Char)
    (hc : isPySpace c = false) :
    parseWs1 (' ' :: c :: rest) = some (c :: rest) := by
  have hsp : isPySpace ' ' = true := by decide
  simp [parseWs1, List.dropWhile, hc, hsp]

theorem parseYear4_pad4 (y : Nat) (hy : y ≤ 9999) :
    parseYear4 (pad4 y) = some (y, []) := by
  have h1 := digitCharOf_isDigit (y / 1000) (by omega)
  have h2 := digitCharOf_isDigit (y / 100 % 10) (by omega)
  have h3 := digitCharOf_isDigit (y / 10 % 10) (by omega)
  have h4 := digitCharOf_isDigit (y % 10) (by omega)
  have h5 := digitCharOf_val (y / 1000) (by omega)
  have h6 := digitCharOf_val (y / 100 % 10) (by omega)
  have h7 := digitCharOf_val (y / 10 % 10) (by omega)
  have h8 := digitCharOf_val (y % 10) (by omega)
  have hval : 1000 * (y / 1000) + 100 * (y / 100 % 10) + 10 * (y / 10 % 10) +
      y % 10 = y := by omega
  simp only [pad4, parseYear4, h1, h2, h3, h4, h5, h6, h7, h8, hval]
  rw [if_pos (by trivial)]

theorem stripChars_no_ends (c1 : Char) (mid : List Char) (c2 : Char)
    (h1 : isPySpace c1 = false) (h2 : isPySpace c2 = false) :
    stripChars (c1 :: (mid ++ [c2])) = c1 :: (mid ++ [c2]) := by
  unfold stripChars
  have e1 : (c1 :: (mid ++ [c2])).dropWhile isPySpace = c1 :: (mid ++ [c2]) := by
    simp [List.dropWhile, h1]
  rw [e1]
  have e2 : (c1 :: (mid ++ [c2])).reverse = c2 :: (mid.reverse ++ [c1]) := by
    simp
  rw [e2]
  have e3 : (c2 :: (mid.reverse ++ [c1])).dropWhile isPySpace =
      c2 :: (mid.reverse ++ [c1]) := by
    simp [List.dropWhile, h2]
  rw [e3, ← e2, List.reverse_reverse]

theorem parseMonth_jan (r : List Char) :
    parseMonth ('J' :: 'a' :: 'n' :: r) = some (1, r) := rfl
theorem parseMonth_feb (r : List Char) :
    parseMonth ('F' :: 'e' :: 'b' :: r) = some (2, r) := rfl
theorem parseMonth_mar (r : List Char) :
    parseMonth ('M' :: 'a' :: 'r' :: r) = some (3, r) := rfl
theorem parseMonth_apr (r : List Char) :
    parseMonth ('A' :: 'p' :: 'r' :: r) = some (4, r) := rfl
theorem parseMonth_may (r : List Char) :
    parseMonth ('M' :: 'a' :: 'y' :: r) = some (5, r) := rfl
theorem parseMonth_jun (r : List Char) :
    parseMonth ('J' :: 'u' :: 'n' :: r) = some (6, r) := rfl
theorem parseMonth_jul (r : List Char) :
    parseMonth ('J' :: 'u' :: 'l' :: r) = some (7, r) := rfl
theorem parseMonth_aug (r : List Char) :
    parseMonth ('A' :: 'u' :: 'g' :: r) = some (8, r) := rfl
theorem parseMonth_sepb (r : List Char) :
    parseMonth ('S' :: 'e' :: 'p' :: r) = some (9, r) := rfl
theorem parseMonth_oct (r : List Char) :
    parseMonth ('O' :: 'c' :: 't' :: r) = some (10, r) := rfl
theorem parseMonth_nov (r : List Char) :
    parseMonth ('N' :: 'o' :: 'v' :: r) = some (11, r) := rfl
theorem parseMonth_dec (r : List Char) :
    parseMonth ('D' :: 'e' :: 'c' :: r) = some (12, r) := rfl

theorem parseWs1_pad4 (y : Nat) (hy : y ≤ 9999) :
    parseWs1 (' ' :: pad4 y) = some (pad4 y) := by
  have h := isPySpace_digitCharOf (y / 1000) (by omega)
  simp only [pad4]
  exact parseWs1_single _ _ h

theorem tryFmt1_render1 (d m y : Nat) (h1 : 1 ≤ d) (h2 : d ≤ daysInMonth m y)
    (hm1 : 1 ≤ m) (hm2 : m ≤ 12) (hy1 : 1 ≤ y) (hy2 : y ≤ 9999) :
    tryFmt1 (renderFmt1 d m y).data = some (y, m, d) := by
  have hd31 : d ≤ 31 := le_trans h2 (daysInMonth_le m y)
  interval_cases m
  all_goals (
    simp only [renderFmt1, monthName]
    unfold tryFmt1
    rw [parseDayChars_pad2 d h1 hd31]
    dsimp only
    simp only [List.cons_append, List.nil_append]
    first
    | (rw [parseWs1_single 'J' _ (by decide)]
       dsimp only
       first
       | rw [parseMonth_jan]
       | rw [parseMonth_jun]
       | rw [parseMonth_jul])
    | (rw [parseWs1_single 'F' _ (by decide)]
       dsimp only
       rw [parseMonth_feb])
    | (rw [parseWs1_single 'M' _ (by decide)]
       dsimp only
       first
       | rw [parseMonth_mar]
       | rw [parseMonth_may])
    | (rw [parseWs1_single 'A' _ (by decide)]
       dsimp only
       first
       | rw [parseMonth_apr]
       | rw [parseMonth_aug])
    | (rw [parseWs1_single 'S' _ (by decide)]
       dsimp only
       rw [parseMonth_sepb])
    | (rw [parseWs1_single 'O' _ (by decide)]
       dsimp only
       rw [parseMonth_oct])
    | (rw [parseWs1_single 'N' _ (by decide)]
       dsimp only
       rw [parseMonth_nov])
    | (rw [parseWs1_single 'D' _ (by decide)]
       dsimp only
       rw [parseMonth_dec])
    dsimp only
    rw [if_pos rfl, parseWs1_pad4 y hy2]
    dsimp only
    rw [parseYear4_pad4 y hy2]
    dsimp only
    rw [if_pos ⟨hy1, h2⟩])

theorem tryFmt2_render2 (d m y : Nat) (h1 : 1 ≤ d) (h2 : d ≤ daysInMonth m y)
    (hm1 : 1 ≤ m) (hm2 : m ≤ 12) (hy1 : 1 ≤ y) (hy2 : y ≤ 9999) :
    tryFmt2 (renderFmt2 d m y).data = some (y, m, d) := by
  have hd31 : d ≤ 31 := le_trans h2 (daysInMonth_le m y)
  interval_cases m
  all_goals (
    simp only [renderFmt2, monthName]
    unfold tryFmt2
    rw [parseDayChars_pad2 d h1 hd31]
    dsimp only
    simp only [List.cons_append, List.nil_append]
    first
    | (rw [parseWs1_single 'J' _ (by decide)]
       dsimp only
       first
       | rw [parseMonth_jan]
       | rw [parseMonth_jun]
       | rw [parseMonth_jul])
    | (rw [parseWs1_single 'F' _ (by decide)]
       dsimp only
       rw [parseMonth_feb])
    | (rw [parseWs1_single 'M' _ (by decide)]
       dsimp only
       first
       | rw [parseMonth_mar]
       | rw [parseMonth_may])
    | (rw [parseWs1_single 'A' _ (by decide)]
       dsimp only
       first
       | rw [parseMonth_apr]
       | rw [parseMonth_aug])
    | (rw [parseWs1_single 'S' _ (by decide)]
       dsimp only
       rw [parseMonth_sepb])
    | (rw [parseWs1_single 'O' _ (by decide)]
       dsimp only
       rw [parseMonth_oct])
    | (rw [parseWs1_single 'N' _ (by decide)]
       dsimp only
       rw [parseMonth_nov])
    | (rw [parseWs1_single 'D' _ (by decide)]
       dsimp only
       rw [parseMonth_dec])
    dsimp only
    rw [parseWs1_pad4 y hy2]
    dsimp only
    rw [parseYear4_pad4 y hy2]
    dsimp only
    rw [if_pos ⟨hy1, h2⟩])

theorem tryFmt1_render2_none (d m y : Nat) (h1 : 1 ≤ d)
    (h2 : d ≤ daysInMonth m y) (hm1 : 1 ≤ m) (hm2 : m ≤ 12) :
    tryFmt1 (renderFmt2 d m y).data = none := by
  have hd31 : d ≤ 31 := le_trans h2 (daysInMonth_le m y)
  interval_cases m
  all_goals (
    simp only [renderFmt2, monthName]
    unfold tryFmt1
    rw [parseDayChars_pad2 d h1 hd31]
    dsimp only
    simp only [List.cons_append, List.nil_append]
    first
    | (rw [parseWs1_single 'J' _ (by decide)]
       dsimp only
       first
       | rw [parseMonth_jan]
       | rw [parseMonth_jun]
       | rw [parseMonth_jul])
    | (rw [parseWs1_single 'F' _ (by decide)]
       dsimp only
       rw [parseMonth_feb])
    | (rw [parseWs1_single 'M' _ (by decide)]
       dsimp only
       first
       | rw [parseMonth_mar]
       | rw [parseMonth_may])
    | (rw [parseWs1_single 'A' _ (by decide)]
       dsimp only
       first
       | rw [parseMonth_apr]
       | rw [parseMonth_aug])
    | (rw [parseWs1_single 'S' _ (by decide)]
       dsimp only
       rw [parseMonth_sepb])
    | (rw [parseWs1_single 'O' _ (by decide)]
       dsimp only
       rw [parseMonth_oct])
    | (rw [parseWs1_single 'N' _ (by decide)]
       dsimp only
       rw [parseMonth_nov])
    | (rw [parseWs1_single 'D' _ (by decide)]
       dsimp only
       rw [parseMonth_dec])
    dsimp only
    rw [if_neg (by decide)])

theorem parseDate_render1 (d m y : Nat) (h1 : 1 ≤ d)
    (h2 : d ≤ daysInMonth m y) (hm1 : 1 ≤ m) (hm2 : m ≤ 12)
    (hy1 : 1000 ≤ y) (hy2 : y ≤ 9999) :
    _parse_date (renderFmt1 d m y) = some (isoOfDate y m d) := by
  have hd31 : d ≤ 31 := le_trans h2 (daysInMonth_le m y)
  have hnd : isPySpace (digitCharOf (d / 10)) = false :=
    isPySpace_digitCharOf _ (by omega)
  have hny : isPySpace (digitCharOf (y % 10)) = false :=
    isPySpace_digitCharOf _ (by omega)
  have hshape : (renderFmt1 d m y).data =
      digitCharOf (d / 10) :: ((digitCharOf (d % 10) :: ' ' :: (monthName m ++
        [',', ' ', digitCharOf (y / 1000), digitCharOf (y / 100 % 10),
         digitCharOf (y / 10 % 10)])) ++ [digitCharOf (y % 10)]) := by
    simp [renderFmt1, pad2, pad4]
  unfold _parse_date pyStrip
  dsimp only
  rw [hshape, stripChars_no_ends _ _ _ hnd hny, ← hshape]
  rw [tryFmt1_render1 d m y h1 h2 hm1 hm2 (by omega) hy2]

theorem parseDate_render2 (d m y : Nat) (h1 : 1 ≤ d)
    (h2 : d ≤ daysInMonth m y) (hm1 : 1 ≤ m) (hm2 : m ≤ 12)
    (hy1 : 1000 ≤ y) (hy2 : y ≤ 9999) :
    _parse_date (renderFmt2 d m y) = some (isoOfDate y m d) := by
  have hd31 : d ≤ 31 := le_trans h2 (daysInMonth_le m y)
  have hnd : isPySpace (digitCharOf (d / 10)) = false :=
    isPySpace_digitCharOf _ (by omega)
  have hny : isPySpace (digitCharOf (y % 10)) = false :=
    isPySpace_digitCharOf _ (by omega)
  have hshape : (renderFmt2 d m y).data =
      digitCharOf (d / 10) :: ((digitCharOf (d % 10) :: ' ' :: (monthName m ++
        [' ', digitCharOf (y / 1000), digitCharOf (y / 100 % 10),
         digitCharOf (y / 10 % 10)])) ++ [digitCharOf (y % 10)]) := by
    simp [renderFmt2, pad2, pad4]
  unfold _parse_date pyStrip
  dsimp only
  rw [hshape, stripChars_no_ends _ _ _ hnd hny, ← hshape]
  rw [tryFmt1_render2_none d m y h1 h2 hm1 hm2]
  dsimp only
  rw [tryFmt2_render2 d m y h1 h2 hm1 hm2 (by omega) hy2]

/-- C7: both accepted date formats normalize to the same ISO text: for
every valid calendar date with a four-digit year, `DD Mon, YYYY` (tried
first) and `DD Mon YYYY` (tried second) both parse and normalize to
`YYYY-MM-DD`.  (`renderFmt1 3 9 2025` is literally `03 Sep, 2025`, and
`renderFmt2 3 9 2025` is `03 Sep 2025`; see the witness.) -/
theorem c7_date_normalization (d m y : Nat) (h1 : 1 ≤ d) (h2 : d ≤ daysInMonth m y)
    (hm1 : 1 ≤ m) (hm2 : m ≤ 12) (hy1 : 1000 ≤ y) (hy2 : y ≤ 9999) :
    _parse_date (renderFmt1 d m y) = some (isoOfDate y m d) ∧
    _parse_date (renderFmt2 d m y) = some (isoOfDate y m d) :=
  ⟨parseDate_render1 d m y h1 h2 hm1 hm2 hy1 hy2,
   parseDate_render2 d m y h1 h2 hm1 hm2 hy1 hy2⟩

/-- C7 witness: the two concrete strings named by the spec. -/
theorem c7_date_normalization_witness :
    _parse_date "03 Sep, 2025" = some "2025-09-03" ∧
    _parse_date "03 Sep 2025" = some "2025-09-03" := by
  have h := c7_date_normalization 3 9 2025 (by decide) (by decide)
    (by decide) (by decide) (by decide) (by decide)
  have e1 : renderFmt1 3 9 2025 = "03 Sep, 2025" := by decide
  have e2 : renderFmt2 3 9 2025 = "03 Sep 2025" := by decide
  have e3 : isoOfDate 2025 9 3 = "2025-09-03" := by decide
  rw [← e1, ← e2, ← e3]
  exact h
